import Mathlib

/-!
Verification of the 2-D distribution-to-distribution NDT registration core
(`d2d_ndt2d.h`) and its robust wrapper (`d2d_ndt2d_robust.h`).

Modelling conventions.

* A C++ `double` is modelled by `Dbl`: an exact rational value or `nan`.
  Every arithmetic operation propagates `nan`; every IEEE comparison
  involving `nan` is false, and `nan` is not equal to itself under `==`.
  Infinities are not modelled (no path proved here produces one).
* The transcendental library calls (`cos`, `sin`, `exp`, `sqrt`, `log`,
  `atan2`) are abstract parameters `ℚ → ℚ`; `sqrt` of a negative argument
  and `atan2`/`exp`/… of `nan` yield `nan`, as in C.
* Eigen collaborators that are external to the repository are oracles:
  `JacobiSVD::solve` is a parameter `svdSolve`, the voxel-grid builder and
  `nearestKSearch` are the `SourceGrid.leaves` list and the
  `TargetGrid.nearestK` function, the validator lookup table of the robust
  wrapper is a parameter `validator`.
* Fixed-size Eigen vectors and matrices are functions out of `Fin n`.
-/

namespace D2DNDT

/-- A C++ `double` in the fragments verified here: an exact rational value,
or `nan`. -/
inductive Dbl where
  | nan : Dbl
  | val : ℚ → Dbl
deriving DecidableEq

namespace Dbl

/-- IEEE addition: `nan` propagates. -/
def add : Dbl → Dbl → Dbl
  | val a, val b => val (a + b)
  | _, _ => nan

/-- IEEE subtraction: `nan` propagates. -/
def sub : Dbl → Dbl → Dbl
  | val a, val b => val (a - b)
  | _, _ => nan

/-- IEEE multiplication: `nan` propagates (note `0 * nan = nan`). -/
def mul : Dbl → Dbl → Dbl
  | val a, val b => val (a * b)
  | _, _ => nan

/-- IEEE negation. -/
def neg : Dbl → Dbl
  | val a => val (-a)
  | nan => nan

/-- Division; division by zero is collapsed to `nan` (the proofs never
evaluate a division by zero on a live path). -/
def div : Dbl → Dbl → Dbl
  | val a, val b => if b = 0 then nan else val (a / b)
  | _, _ => nan

instance : Add Dbl := ⟨add⟩
instance : Sub Dbl := ⟨sub⟩
instance : Mul Dbl := ⟨mul⟩
instance : Neg Dbl := ⟨neg⟩
instance : Div Dbl := ⟨div⟩
instance : Zero Dbl := ⟨val 0⟩
instance : One Dbl := ⟨val 1⟩
instance : NatCast Dbl := ⟨fun n => val n⟩

/-- IEEE `<`: false whenever an operand is `nan`. -/
def lt : Dbl → Dbl → Bool
  | val a, val b => decide (a < b)
  | _, _ => false

/-- IEEE `<=`: false whenever an operand is `nan`. -/
def le : Dbl → Dbl → Bool
  | val a, val b => decide (a ≤ b)
  | _, _ => false

/-- IEEE `==`: false whenever an operand is `nan` (so `nan != nan`). -/
def beq : Dbl → Dbl → Bool
  | val a, val b => decide (a = b)
  | _, _ => false

/-- `std::fabs`. -/
def abs : Dbl → Dbl
  | val a => val |a|
  | nan => nan

/-- `std::min` on doubles: `(b < a) ? b : a`. -/
def minStd (a b : Dbl) : Dbl := if lt b a then b else a

/-- `std::max` on doubles: `(a < b) ? b : a`. -/
def maxStd (a b : Dbl) : Dbl := if lt a b then b else a

/-- A total real function (such as `cos`, `sin`, `exp`), abstracted as a
rational model `f`, lifted to doubles: `nan` in, `nan` out. -/
def lift1 (f : ℚ → ℚ) : Dbl → Dbl
  | val a => val (f a)
  | nan => nan

/-- `std::sqrt` with rational model `f`: negative arguments give `nan`. -/
def sqrtD (f : ℚ → ℚ) : Dbl → Dbl
  | val a => if a < 0 then nan else val (f a)
  | nan => nan

/-- `std::atan2` with rational model `f`: `nan` in, `nan` out. -/
def atan2D (f : ℚ → ℚ → ℚ) : Dbl → Dbl → Dbl
  | val y, val x => val (f y x)
  | _, _ => nan

instance : AddCommMonoid Dbl where
  add_assoc a b c := by
    cases a <;> cases b <;> cases c <;>
      first
        | rfl
        | (show Dbl.val _ = Dbl.val _
           congr 1
           ring)
  zero_add a := by
    cases a <;>
      first
        | rfl
        | (show Dbl.val _ = Dbl.val _
           congr 1
           ring)
  add_zero a := by
    cases a <;>
      first
        | rfl
        | (show Dbl.val _ = Dbl.val _
           congr 1
           ring)
  add_comm a b := by
    cases a <;> cases b <;>
      first
        | rfl
        | (show Dbl.val _ = Dbl.val _
           congr 1
           ring)
  nsmul := nsmulRec

end Dbl

/-- A 3-vector of doubles (`Eigen::Vector3d`). -/
abbrev V3 := Fin 3 → Dbl

/-- A 3×3 matrix of doubles (`Eigen::Matrix3d`). -/
abbrev M3 := Fin 3 → Fin 3 → Dbl

/-- A 4×4 transformation matrix of doubles. -/
abbrev M4D := Fin 4 → Fin 4 → Dbl

/-- Dot product of 3-vectors. -/
def dot3 (u v : V3) : Dbl := u 0 * v 0 + u 1 * v 1 + u 2 * v 2

/-- Matrix · column-vector. -/
def mulMV (A : M3) (v : V3) : V3 :=
  fun i => A i 0 * v 0 + A i 1 * v 1 + A i 2 * v 2

/-- Row-vector · matrix (`vᵀ · A`, a row vector). -/
def rowMul (v : V3) (A : M3) : V3 :=
  fun k => v 0 * A 0 k + v 1 * A 1 k + v 2 * A 2 k

/-- 3×3 matrix product. -/
def mul33 (A B : M3) : M3 :=
  fun i k => A i 0 * B 0 k + A i 1 * B 1 k + A i 2 * B 2 k

/-- 3×3 transpose. -/
def transpose3 (A : M3) : M3 := fun i j => A j i

/-- Scalar · 3×3 matrix. -/
def smul33 (s : Dbl) (A : M3) : M3 := fun i j => s * A i j

/-- The 3×3 identity (`setIdentity`). -/
def idM3 : M3 := fun i j => if i = j then 1 else 0

/-- The 4×4 identity (`setIdentity`). -/
def idM4D : M4D := fun i j => if i = j then 1 else 0

/-- Determinant of a 3×3 matrix by cofactor expansion (as Eigen's fixed-size
path computes it). -/
def det3 (A : M3) : Dbl :=
  A 0 0 * (A 1 1 * A 2 2 - A 1 2 * A 2 1)
    - A 0 1 * (A 1 0 * A 2 2 - A 1 2 * A 2 0)
    + A 0 2 * (A 1 0 * A 2 1 - A 1 1 * A 2 0)

/-- 3×3 inverse: adjugate over determinant (Eigen's closed form). -/
def inv3 (A : M3) : M3 :=
  let d := det3 A
  ![![(A 1 1 * A 2 2 - A 1 2 * A 2 1) / d,
     (A 0 2 * A 2 1 - A 0 1 * A 2 2) / d,
     (A 0 1 * A 1 2 - A 0 2 * A 1 1) / d],
    ![(A 1 2 * A 2 0 - A 1 0 * A 2 2) / d,
     (A 0 0 * A 2 2 - A 0 2 * A 2 0) / d,
     (A 0 2 * A 1 0 - A 0 0 * A 1 2) / d],
    ![(A 1 0 * A 2 1 - A 1 1 * A 2 0) / d,
     (A 0 1 * A 2 0 - A 0 0 * A 2 1) / d,
     (A 0 0 * A 1 1 - A 0 1 * A 1 0) / d]]

/-- Eigen's `computeInverseAndDetWithCheck` on a 3×3 matrix: the inverse, the
determinant, and the invertibility flag `|det| > threshold` (false when the
determinant is `nan`). -/
def inverseAndDetCheck (threshold : ℚ) (A : M3) : M3 × Dbl × Bool :=
  let det := det3 A
  (inv3 A, det, Dbl.lt (Dbl.val threshold) det.abs)

/-- `ScoreAndDerivatives<3, double>`: score value with gradient and Hessian. -/
structure ScoreTriple where
  hessian_ : M3
  gradient_ : V3
  value_ : Dbl
deriving DecidableEq

instance : Add ScoreTriple :=
  ⟨fun a b => ⟨a.hessian_ + b.hessian_, a.gradient_ + b.gradient_,
    a.value_ + b.value_⟩⟩

instance : Zero ScoreTriple := ⟨⟨0, 0, 0⟩⟩

instance : AddCommMonoid ScoreTriple where
  add_assoc a b c := by
    cases a; cases b; cases c
    simp only [HAdd.hAdd, Add.add, ScoreTriple.mk.injEq]
    exact ⟨add_assoc _ _ _, add_assoc _ _ _, add_assoc _ _ _⟩
  zero_add a := by
    cases a
    simp only [HAdd.hAdd, Add.add, Zero.zero, ScoreTriple.mk.injEq]
    exact ⟨zero_add _, zero_add _, zero_add _⟩
  add_zero a := by
    cases a
    simp only [HAdd.hAdd, Add.add, Zero.zero, ScoreTriple.mk.injEq]
    exact ⟨add_zero _, add_zero _, add_zero _⟩
  add_comm a b := by
    cases a; cases b
    simp only [HAdd.hAdd, Add.add, ScoreTriple.mk.injEq]
    exact ⟨add_comm _ _, add_comm _ _, add_comm _ _⟩
  nsmul := nsmulRec

/-- `FittingParams`: the Gaussian fitting constants (eq. 6.8, Magnusson 2009). -/
structure FittingParams where
  gauss_d1_ : Dbl
  gauss_d2_ : Dbl
  gauss_d2__half_ : Dbl
deriving DecidableEq

/-- `FittingParams::calcParams`, with `logq`/`expq` the rational models of
`std::log`/`std::exp`.  Straight-line code, no validation of any kind. -/
def calcParams (logq expq : ℚ → ℚ) (outlierRatio resolution : ℚ) :
    FittingParams :=
  let gauss_c1 := 10 * (1 - outlierRatio)
  let gauss_c2 := outlierRatio / resolution ^ 2
  let gauss_d3 := -logq gauss_c2
  let gauss_d1 := -logq (gauss_c1 + gauss_c2) - gauss_d3
  let gauss_d2 :=
    -2 * logq ((-logq (gauss_c1 * expq (-(1 / 2)) + gauss_c2) - gauss_d3)
      / gauss_d1)
  ⟨Dbl.val gauss_d1, Dbl.val gauss_d2, Dbl.val (gauss_d2 / 2)⟩

/-- The outcome of constructing a `FittingParams`, with the error channel the
specification describes.  The source constructor has no failure path at all,
so the embedding can only ever produce `ok`. -/
inductive FitResult where
  | ok : FittingParams → FitResult
  | invalidParameter : FitResult
deriving DecidableEq

/-- Constructing the fitting parameters for one resolution, as `initParams`
does: `FittingParams(outlier_ratio_, 1 / cell_sizes_[i])`. -/
def fittingParamsAt (logq expq : ℚ → ℚ) (outlierRatio cellSize : ℚ) :
    FitResult :=
  .ok (calcParams logq expq outlierRatio (1 / cellSize))

/-- `initParams`: one `FittingParams` per configured cell size. -/
def initParamsE (logq expq : ℚ → ℚ) (outlierRatio : ℚ) (cellSizes : List ℚ) :
    List FittingParams :=
  cellSizes.map fun cs => calcParams logq expq outlierRatio (1 / cs)

/-! Cell-size configuration (`initCellSizes`, `setCellSize`). -/

/-- The configuration state the cell-size setters touch. -/
structure RegState where
  layer_count : ℕ
  cell_sizes : List ℚ
deriving DecidableEq

/-- `initCellSizes(base_size)`: pushes `base_size * 2^i` for
`i = layer_count - 1, …, 0` (coarsest first). -/
def initCellSizesE (base_size : ℚ) (layer_count : ℕ) : List ℚ :=
  (List.range layer_count).reverse.map fun i => base_size * 2 ^ i

/-- The default construction: `layer_count_ = 4`, `initCellSizes(0.25)`. -/
def d2dDefault : RegState := ⟨4, initCellSizesE (1 / 4) 4⟩

/-- `setCellSize(float)`: rebuild the sizes from the scalar base. -/
def setCellSizeScalar (cell_size : ℚ) (st : RegState) : RegState :=
  ⟨st.layer_count, initCellSizesE cell_size st.layer_count⟩

/-- `setCellSize(const std::vector<float>&)`: take the explicit sizes,
`std::sort` ascending (modelled by insertion sort, which produces the same
sorted sequence), then `std::reverse`. -/
def setCellSizeVec (cell_sizes : List ℚ) (st : RegState) : RegState :=
  ⟨cell_sizes.length, ((cell_sizes.insertionSort (· ≤ ·)).reverse)⟩

/-! The robust wrapper (`d2d_ndt2d_robust.h`).  The inner D2D runs, the
correlative seeder and the validator lookup table are oracles: an aligner
maps a guess to `(hasConverged, getFinalTransformation)`. -/

/-- A 4×4 float transformation, exact. -/
abbrev M4Q := Fin 4 → Fin 4 → ℚ

/-- The 4×4 identity (`final_transformation_.setIdentity()`). -/
def idM4 : M4Q := fun i j => if i = j then 1 else 0

/-- The tail of `computeTransformation` after the staged `if` block: score
the current final transformation of the inner D2D and arbitrate with the
0.4 / 0.6 thresholds (`score` is the first stage's validator score,
`first_trans` the saved first transformation, `cur` the inner D2D's current
final transformation).  Returns `(converged_, final_transformation_)`. -/
def robustArbitrate (validator : M4Q → ℚ) (score : ℚ)
    (first_trans cur : M4Q) : Bool × M4Q :=
  let score2 := validator cur
  if score2 < 2 / 5 then
    if score > 3 / 5 then (true, first_trans) else (false, idM4)
  else (true, cur)

/-- `D2DNormalDistributionsTransform2DRobust::computeTransformation`.
`d2dA` and `corrA` map an input guess to the collaborator's
`(hasConverged(), getFinalTransformation())`; `validator` is
`proofTransform`.  `firstTransInit` stands for the indeterminate initial
contents of the uninitialised local `first_trans` (it is only read on paths
where the source assigned it, as the equivalence theorem shows).  The two
early returns deliver `(false, I)`; every other path falls through to the
shared arbitration tail `robustArbitrate`.
Returns `(converged_, final_transformation_)`. -/
def robustAlign (d2dA corrA : M4Q → Bool × M4Q) (validator : M4Q → ℚ)
    (guess firstTransInit : M4Q) : Bool × M4Q :=
  let r1 := d2dA guess
  let score := validator r1.2
  if ¬(r1.1 = true ∧ score > 7 / 10) then
    -- bad first result: robust alignment path
    let first_trans := r1.2
    let rc := corrA guess
    if ¬rc.1 = true then (false, idM4)
    else
      let r2 := d2dA rc.2
      if ¬r2.1 = true then (false, idM4)
      else robustArbitrate validator score first_trans r2.2
  else robustArbitrate validator score firstTransInit r1.2

/-- The staged arbitration exactly as the claim words it: accept the direct
run when it converged with validator score above 0.7; otherwise seed and
rerun, reporting no alignment when either stage fails to converge; accept
the rerun iff its score is at least 0.4, else salvage the first result iff
its score exceeds 0.6, else report no alignment. -/
def robustAlignClaim (d2dA corrA : M4Q → Bool × M4Q) (validator : M4Q → ℚ)
    (guess : M4Q) : Bool × M4Q :=
  let r1 := d2dA guess
  let s1 := validator r1.2
  if r1.1 = true ∧ s1 > 7 / 10 then (true, r1.2)
  else
    let rc := corrA guess
    if rc.1 = false then (false, idM4)
    else
      let r2 := d2dA rc.2
      if r2.1 = false then (false, idM4)
      else
        let s2 := validator r2.2
        if s2 ≥ 2 / 5 then (true, r2.2)
        else if s1 > 3 / 5 then (true, r1.2)
        else (false, idM4)

/-! The derivative kit (`JacobianHessianDerivatives`, `computeDerivatives`). -/

/-- Write one entry of a fixed-size matrix (an Eigen `M(i, j) = v`). -/
def updE {m n : ℕ} (M : Fin m → Fin n → Dbl) (i : Fin m) (j : Fin n)
    (v : Dbl) : Fin m → Fin n → Dbl :=
  fun a b => if a = i ∧ b = j then v else M a b

/-- `M.block<2,2>(0,0).setIdentity()` on a 3×3 matrix. -/
def setTopLeftId2 (M : M3) : M3 :=
  fun a b => if a.1 < 2 ∧ b.1 < 2 then (if a = b then 1 else 0) else M a b

/-- `M.block<3,3>(r,c) << …` : overwrite a 3×3 block with `B`. -/
def setBlk33 {m n : ℕ} (M : Fin m → Fin n → Dbl) (r c : ℕ)
    (hr : r + 3 ≤ m) (hc : c + 3 ≤ n) (B : M3) : Fin m → Fin n → Dbl :=
  fun a b =>
    if h : r ≤ a.1 ∧ a.1 < r + 3 ∧ c ≤ b.1 ∧ b.1 < c + 3 then
      B ⟨a.1 - r, by omega⟩ ⟨b.1 - c, by omega⟩
    else M a b

/-- `M.block<3,1>(r,c) << …` : overwrite a 3×1 block with `B`. -/
def setBlk31 {m n : ℕ} (M : Fin m → Fin n → Dbl) (r : ℕ) (c : Fin n)
    (hr : r + 3 ≤ m) (B : Fin 3 → Dbl) : Fin m → Fin n → Dbl :=
  fun a b =>
    if h : r ≤ a.1 ∧ a.1 < r + 3 ∧ b = c then B ⟨a.1 - r, by omega⟩
    else M a b

/-- Read a 3×3 block, `M.block<3,3>(r,c)`. -/
def blk33 {m n : ℕ} (M : Fin m → Fin n → Dbl) (r c : ℕ)
    (hr : r + 3 ≤ m) (hc : c + 3 ≤ n) : M3 :=
  fun a b => M ⟨r + a.1, by omega⟩ ⟨c + b.1, by omega⟩

/-- Read a 3×1 block, `M.block<3,1>(r,c)`. -/
def blk31 {m n : ℕ} (M : Fin m → Fin n → Dbl) (r : ℕ) (c : Fin n)
    (hr : r + 3 ≤ m) : Fin 3 → Dbl :=
  fun a => M ⟨r + a.1, by omega⟩ c

/-- `JacobianHessianDerivatives`: Jacobian and Hessian blocks of the
transformed mean and covariance. -/
structure JacobianHessianDerivatives where
  Jest : M3
  Hest : Fin 9 → Fin 3 → Dbl
  Zest : Fin 3 → Fin 9 → Dbl
  ZHest : Fin 9 → Fin 9 → Dbl
deriving DecidableEq

/-- `JacobianHessianDerivatives::setZero`. -/
def JacobianHessianDerivatives.zeroKit : JacobianHessianDerivatives :=
  ⟨fun _ _ => 0, fun _ _ => 0, fun _ _ => 0, fun _ _ => 0⟩

/-- `computeDerivatives(x, cov, data, calc_hessian)`: zero everything, then
write the listed entries and blocks. -/
def computeDerivatives (x : V3) (cov : M3) (calc_hessian : Bool) :
    JacobianHessianDerivatives :=
  let z := JacobianHessianDerivatives.zeroKit
  let jest := updE (updE (setTopLeftId2 z.Jest) 0 2 (-x 1)) 1 2 (x 0)
  let zest := setBlk33 z.Zest 0 6 (by omega) (by omega)
    ![![-2 * cov 0 1, -cov 1 1 + cov 0 0, -cov 1 2],
      ![-cov 1 1 + cov 0 0, 2 * cov 0 1, cov 0 2],
      ![-cov 1 2, cov 0 2, 0]]
  if calc_hessian then
    { Jest := jest, Zest := zest,
      Hest := setBlk31 z.Hest 6 2 (by omega) ![-x 0, -x 1, 0],
      ZHest := setBlk33 z.ZHest 6 6 (by omega) (by omega)
        ![![2 * cov 1 1 - 2 * cov 0 0, -4 * cov 0 1, -cov 0 2],
          ![-4 * cov 0 1, 2 * cov 0 0 - 2 * cov 1 1, -cov 1 2],
          ![-cov 0 2, -cov 1 2, 0]] }
  else { Jest := jest, Zest := zest, Hest := z.Hest, ZHest := z.ZHest }

/-! The per-pair score (`calcSourceCellScore`). -/

/-- One voxel-grid leaf: the cell Gaussian the external builder supplies. -/
structure Leaf where
  mean : V3
  cov : M3

/-- `calcSourceCellScore`: the contribution of one (transformed source cell,
target cell) pair.  A singular covariance sum and a `nan` Mahalanobis
distance both return the zero triple; `expq` is the rational model of
`std::exp`, `detEps` the Eigen invertibility threshold. -/
def calcSourceCellScore (expq : ℚ → ℚ) (detEps : ℚ)
    (mean_source : V3) (cov_source : M3) (cell_t : Leaf)
    (deriv : JacobianHessianDerivatives) (param : FittingParams)
    (calc_hessian : Bool) : ScoreTriple :=
  let diff_mean : V3 := fun i => mean_source i - cell_t.mean i
  let cov_sum : M3 := fun i j => cell_t.cov i j + cov_source i j
  let idc := inverseAndDetCheck detEps cov_sum
  let icov := idc.1
  if idc.2.2 = false then 0          -- if (!exists) return res.Zero();
  else
    let dist := dot3 diff_mean (mulMV icov diff_mean)
    if Dbl.beq (dist * 0) 0 = false then 0  -- if (dist * 0 != 0) return zero
    else
      let value :=
        -param.gauss_d1_ * Dbl.lift1 expq (-param.gauss_d2__half_ * dist)
      let xtB := rowMul diff_mean icov
      let xtBJ := rowMul xtB deriv.Jest
      let TMP1 :=
        rowMul (rowMul xtB (blk33 deriv.Zest 0 6 (by omega) (by omega))) icov
      let xtBZBx : V3 := fun i => if i = 2 then dot3 TMP1 diff_mean else 0
      let Q : V3 := fun i => 2 * xtBJ i - xtBZBx i
      let factor := -param.gauss_d2__half_ * value
      let gradient : V3 := fun i => 0 + Q i * factor
      let hessian : M3 :=
        if calc_hessian then
          let xtBZBJ : M3 := fun i j =>
            if j = 2 then rowMul TMP1 deriv.Jest i else 0
          let xtBH : M3 := fun i j =>
            if i = 2 then dot3 xtB (blk31 deriv.Hest 6 j (by omega)) else 0
          let xtBZBZBx : M3 := fun i j =>
            if i = 2 then
              dot3 (rowMul (rowMul TMP1 (blk33 deriv.Zest 0 (3 * j.1)
                (by omega) (by have := j.isLt; omega))) icov) diff_mean
            else 0
          let xtBZhBx : M3 := fun i j =>
            if i = 2 then
              dot3 (rowMul (rowMul xtB (blk33 deriv.ZHest 6 (3 * j.1)
                (by omega) (by have := j.isLt; omega))) icov) diff_mean
            else 0
          fun i j => 0 + factor *
            (mul33 (mul33 (smul33 2 (transpose3 deriv.Jest)) icov)
                deriv.Jest i j
              + 2 * xtBH i j - xtBZhBx i j - 2 * transpose3 xtBZBJ i j
              - 2 * xtBZBJ i j + xtBZBZBx i j + transpose3 xtBZBZBx i j
              - param.gauss_d2__half_ * (Q i * Q j))
        else fun _ _ => 0
      ⟨hessian, gradient, value⟩

/-! The score accumulator (`calcScore`). -/

/-- The per-resolution source grid: the leaves the external
`VoxelGridCovariance` builder produced, in iteration order. -/
structure SourceGrid where
  leaves : List Leaf

/-- The per-resolution target grid: `nearestKSearch` with `k = 2` is the
external kd-tree collaborator, modelled as a function of the query point. -/
structure TargetGrid where
  nearestK : V3 → List Leaf

/-- The ambient oracles: rational models of the math library calls, the
Eigen invertibility threshold, the OpenMP thread assignment (the loop runs
with `num_threads(2)`), and Eigen's `JacobiSVD::solve`. -/
structure Ctx where
  cosq : ℚ → ℚ
  sinq : ℚ → ℚ
  expq : ℚ → ℚ
  sqrtq : ℚ → ℚ
  atan2q : ℚ → ℚ → ℚ
  detEps : ℚ
  tid : ℕ → Fin 2
  svdSolve : M3 → V3 → V3

/-- `vecToMat<double>`: rotation about Z by `trans(2)` and translation
`(trans(0), trans(1), 0)`. -/
def vecToMatD (cosq sinq : ℚ → ℚ) (trans : V3) : M4D :=
  let c := Dbl.lift1 cosq (trans 2)
  let s := Dbl.lift1 sinq (trans 2)
  ![![c, -s, 0, trans 0],
    ![s, c, 0, trans 1],
    ![0, 0, 1, 0],
    ![0, 0, 0, 1]]

/-- `matToVec`: translation entries and `atan2(R(1,0), R(0,0))` (for the
rigid transforms at hand, `Transform::rotation()` is the linear block). -/
def matToVecD (atan2q : ℚ → ℚ → ℚ) (T : M4D) : V3 :=
  ![T 0 3, T 1 3, Dbl.atan2D atan2q (T 1 0) (T 0 0)]

/-- The rotational 3×3 block of a rigid 4×4 transform
(`Transform::rotation()`). -/
def rotPart (T : M4D) : M3 := fun i j => T i.castSucc j.castSucc

/-- Apply an affine transform to a 3-D point (`trans_mat * mean`). -/
def affineApply (T : M4D) (v : V3) : V3 :=
  fun i => T i.castSucc 0 * v 0 + T i.castSucc 1 * v 1
    + T i.castSucc 2 * v 2 + T i.castSucc 3

/-- The total contribution of one source cell: transform its Gaussian by the
pose, compute the derivative kit, and sum `calcSourceCellScore` over the
`k = 2` nearest target cells (the body of the parallel loop, folded from
zero). -/
def cellScoreContribution (ctx : Ctx) (param : FittingParams) (trans : V3)
    (targetNDT : TargetGrid) (calc_hessian : Bool) (cell : Leaf) :
    ScoreTriple :=
  let trans_mat := vecToMatD ctx.cosq ctx.sinq trans
  let R := rotPart trans_mat
  let mean_source := affineApply trans_mat cell.mean
  let cov_source := mul33 (mul33 R cell.cov) (transpose3 R)
  let partial_derivatives :=
    computeDerivatives mean_source cov_source calc_hessian
  (targetNDT.nearestK mean_source).foldl
    (fun acc cell_t => acc + calcSourceCellScore ctx.expq ctx.detEps
      mean_source cov_source cell_t partial_derivatives param calc_hessian) 0

/-- The `omp_ret` accumulator vector after the parallel loop: 8 slots (the
source resizes to 4 and then pushes 4 more zero entries), each cell's
neighbour contributions folded into the slot of the thread that owns the
cell.  Slot updates are exclusive per thread, so any interleaving of the two
workers yields this function. -/
def calcScoreSlots (ctx : Ctx) (param : FittingParams) (trans : V3)
    (targetNDT : TargetGrid) (calc_hessian : Bool) (source_cells : List Leaf) :
    Fin 8 → ScoreTriple :=
  source_cells.enum.foldl
    (fun slots p =>
      let trans_mat := vecToMatD ctx.cosq ctx.sinq trans
      let R := rotPart trans_mat
      let mean_source := affineApply trans_mat p.2.mean
      let cov_source := mul33 (mul33 R p.2.cov) (transpose3 R)
      let partial_derivatives :=
        computeDerivatives mean_source cov_source calc_hessian
      let k : Fin 8 := (ctx.tid p.1).castLE (by omega)
      Function.update slots k
        ((targetNDT.nearestK mean_source).foldl
          (fun acc cell_t => acc + calcSourceCellScore ctx.expq ctx.detEps
            mean_source cov_source cell_t partial_derivatives param
            calc_hessian)
          (slots k)))
    (fun _ => 0)

/-- `calcScore`: run the parallel accumulation, then reduce
`res += omp_ret[i]` over all 8 slots. -/
def calcScoreE (ctx : Ctx) (param : FittingParams) (sourceNDT : SourceGrid)
    (trans : V3) (targetNDT : TargetGrid) (calc_hessian : Bool) :
    ScoreTriple :=
  let slots :=
    calcScoreSlots ctx param trans targetNDT calc_hessian sourceNDT.leaves
  (List.finRange 8).foldl (fun res i => res + slots i) 0

/-- The sequential reference the claim describes: fold the per-cell
contributions over the source cells in order. -/
def calcScoreSeq (ctx : Ctx) (param : FittingParams) (sourceNDT : SourceGrid)
    (trans : V3) (targetNDT : TargetGrid) (calc_hessian : Bool) :
    ScoreTriple :=
  sourceNDT.leaves.foldl
    (fun acc cell =>
      acc + cellScoreContribution ctx param trans targetNDT calc_hessian cell)
    0

/-! The More–Thuente line search (`computeStepLengthMT` and helpers). -/

/-- `auxilaryFunction_PsiMT`: ψ(α) = φ(α) − φ(0) − μ·φ'(0)·α. -/
def auxilaryFunction_PsiMT (a f_a f_0 g_0 mu : Dbl) : Dbl :=
  f_a - f_0 - mu * g_0 * a

/-- `auxilaryFunction_dPsiMT`: ψ'(α) = φ'(α) − μ·φ'(0). -/
def auxilaryFunction_dPsiMT (g_a g_0 mu : Dbl) : Dbl :=
  g_a - mu * g_0

/-- The interval endpoints `(a_l, f_l, g_l, a_u, f_u, g_u)` the line search
maintains. -/
structure IntervalMT where
  a_l : Dbl
  f_l : Dbl
  g_l : Dbl
  a_u : Dbl
  f_u : Dbl
  g_u : Dbl

/-- `updateIntervalMT`: the More–Thuente updating algorithm; returns the
interval-converged flag with the updated endpoints. -/
def updateIntervalMT (s : IntervalMT) (a_t f_t g_t : Dbl) :
    Bool × IntervalMT :=
  if Dbl.lt s.f_l f_t then                       -- Case U1: f_t > f_l
    (false, { s with a_u := a_t, f_u := f_t, g_u := g_t })
  else if Dbl.lt 0 (g_t * (s.a_l - a_t)) then    -- Case U2
    (false, { s with a_l := a_t, f_l := f_t, g_l := g_t })
  else if Dbl.lt (g_t * (s.a_l - a_t)) 0 then    -- Case U3
    (false, { a_l := a_t, f_l := f_t, g_l := g_t,
              a_u := s.a_l, f_u := s.f_l, g_u := s.g_l })
  else (true, s)

/-- `trialValueSelectionMT`: the More–Thuente trial value selection
(`sqrtq` models `std::sqrt`). -/
def trialValueSelectionMT (sqrtq : ℚ → ℚ)
    (a_l f_l g_l a_u f_u g_u a_t f_t g_t : Dbl) : Dbl :=
  if Dbl.lt f_l f_t then                         -- Case 1: f_t > f_l
    let z := 3 * (f_t - f_l) / (a_t - a_l) - g_t - g_l
    let w := Dbl.sqrtD sqrtq (z * z - g_t * g_l)
    let a_c := a_l + (a_t - a_l) * (w - g_l - z) / (g_t - g_l + 2 * w)
    let a_q := a_l - Dbl.val (1 / 2) * (a_l - a_t) * g_l
      / (g_l - (f_l - f_t) / (a_l - a_t))
    if Dbl.lt (Dbl.abs (a_c - a_l)) (Dbl.abs (a_q - a_l)) then a_c
    else Dbl.val (1 / 2) * (a_q + a_c)
  else if Dbl.lt (g_t * g_l) 0 then              -- Case 2
    let z := 3 * (f_t - f_l) / (a_t - a_l) - g_t - g_l
    let w := Dbl.sqrtD sqrtq (z * z - g_t * g_l)
    let a_c := a_l + (a_t - a_l) * (w - g_l - z) / (g_t - g_l + 2 * w)
    let a_s := a_l - (a_l - a_t) / (g_l - g_t) * g_l
    if Dbl.le (Dbl.abs (a_s - a_t)) (Dbl.abs (a_c - a_t)) then a_c else a_s
  else if Dbl.le (Dbl.abs g_t) (Dbl.abs g_l) then  -- Case 3
    let z := 3 * (f_t - f_l) / (a_t - a_l) - g_t - g_l
    let w := Dbl.sqrtD sqrtq (z * z - g_t * g_l)
    let a_c := a_l + (a_t - a_l) * (w - g_l - z) / (g_t - g_l + 2 * w)
    let a_s := a_l - (a_l - a_t) / (g_l - g_t) * g_l
    let a_t_next :=
      if Dbl.lt (Dbl.abs (a_c - a_t)) (Dbl.abs (a_s - a_t)) then a_c else a_s
    if Dbl.lt a_l a_t then
      Dbl.minStd (a_t + Dbl.val (33 / 50) * (a_u - a_t)) a_t_next
    else
      Dbl.maxStd (a_t + Dbl.val (33 / 50) * (a_u - a_t)) a_t_next
  else                                           -- Case 4
    let z := 3 * (f_t - f_u) / (a_t - a_u) - g_t - g_u
    let w := Dbl.sqrtD sqrtq (z * z - g_t * g_u)
    a_u + (a_t - a_u) * (w - g_u - z) / (g_t - g_u + 2 * w)

/-- The mutable state of the line-search loop. -/
structure MTState where
  intv : IntervalMT
  a_t : Dbl
  phi_t : Dbl
  d_phi_t : Dbl
  psi_t : Dbl
  d_psi_t : Dbl
  open_interval : Bool
  interval_converged : Bool
  step_iterations : ℕ

/-- The `while` guard of the line-search loop (`max_step_iterations = 10`). -/
def mtCond (nu d_phi_0 : Dbl) (s : MTState) : Bool :=
  !s.interval_converged && decide (s.step_iterations < 10) &&
    !(Dbl.le s.psi_t 0 && Dbl.le s.d_phi_t (-nu * d_phi_0))

/-- One iteration of the line-search loop: trial value, clamp, re-evaluate
the score without Hessian, possibly close the interval, update endpoints. -/
def mtBody (ctx : Ctx) (param : FittingParams) (source_grid : SourceGrid)
    (target_grid : TargetGrid) (x step_dir : V3)
    (step_max step_min phi_0 d_phi_0 mu : Dbl) (s : MTState) : MTState :=
  let a_t :=
    if s.open_interval then
      trialValueSelectionMT ctx.sqrtq s.intv.a_l s.intv.f_l s.intv.g_l
        s.intv.a_u s.intv.f_u s.intv.g_u s.a_t s.psi_t s.d_psi_t
    else
      trialValueSelectionMT ctx.sqrtq s.intv.a_l s.intv.f_l s.intv.g_l
        s.intv.a_u s.intv.f_u s.intv.g_u s.a_t s.phi_t s.d_phi_t
  let a_t := Dbl.maxStd (Dbl.minStd a_t step_max) step_min
  let x_t : V3 := fun i => x i + step_dir i * a_t
  let score_vals := calcScoreE ctx param source_grid x_t target_grid false
  let phi_t := -score_vals.value_
  let d_phi_t := -dot3 score_vals.gradient_ step_dir
  let psi_t := auxilaryFunction_PsiMT a_t phi_t phi_0 d_phi_0 mu
  let d_psi_t := auxilaryFunction_dPsiMT d_phi_t d_phi_0 mu
  let closeNow := s.open_interval && (Dbl.le psi_t 0 && Dbl.le 0 d_psi_t)
  let open_interval := if closeNow then false else s.open_interval
  let intv :=
    if closeNow then
      { a_l := s.intv.a_l,
        f_l := s.intv.f_l + phi_0 - mu * d_phi_0 * s.intv.a_l,
        g_l := s.intv.g_l + mu * d_phi_0,
        a_u := s.intv.a_u,
        f_u := s.intv.f_u + phi_0 - mu * d_phi_0 * s.intv.a_u,
        g_u := s.intv.g_u + mu * d_phi_0 }
    else s.intv
  let upd :=
    if open_interval then updateIntervalMT intv a_t psi_t d_psi_t
    else updateIntervalMT intv a_t phi_t d_phi_t
  { intv := upd.2, a_t := a_t, phi_t := phi_t, d_phi_t := d_phi_t,
    psi_t := psi_t, d_psi_t := d_psi_t, open_interval := open_interval,
    interval_converged := upd.1,
    step_iterations := s.step_iterations + 1 }

/-- The line-search loop, fuelled by the iteration cap (10 suffices since
every iteration increments `step_iterations` and the guard requires it to
stay below 10). -/
def mtLoop (ctx : Ctx) (param : FittingParams) (source_grid : SourceGrid)
    (target_grid : TargetGrid) (x step_dir : V3)
    (step_max step_min phi_0 d_phi_0 mu nu : Dbl) :
    ℕ → MTState → MTState
  | 0, s => s
  | fuel + 1, s =>
    if mtCond nu d_phi_0 s then
      mtLoop ctx param source_grid target_grid x step_dir step_max step_min
        phi_0 d_phi_0 mu nu fuel
        (mtBody ctx param source_grid target_grid x step_dir step_max
          step_min phi_0 d_phi_0 mu s)
    else s

/-- `computeStepLengthMT`.  Returns the selected step length together with
the final step direction (the source takes `step_dir` by reference and may
reverse it). -/
def computeStepLengthMT (ctx : Ctx) (param : FittingParams)
    (source_grid : SourceGrid) (target_grid : TargetGrid) (x step_dir0 : V3)
    (step_init step_max step_min : Dbl) (score : ScoreTriple) : Dbl × V3 :=
  let phi_0 := -score.value_
  let d_phi_00 := -dot3 score.gradient_ step_dir0
  if Dbl.le 0 d_phi_00 && Dbl.beq d_phi_00 0 then (0, step_dir0)
  else
    -- when φ'(0) ≥ 0 (and ≠ 0) the direction is reversed
    let d_phi_0 := if Dbl.le 0 d_phi_00 then d_phi_00 * (-1) else d_phi_00
    let step_dir : V3 :=
      if Dbl.le 0 d_phi_00 then (fun i => step_dir0 i * (-1)) else step_dir0
    let mu : Dbl := Dbl.val (1 / 10000)
    let nu : Dbl := Dbl.val (9 / 10)
    let a_l : Dbl := 0
    let a_u : Dbl := 0
    let f_l := auxilaryFunction_PsiMT a_l phi_0 phi_0 d_phi_0 mu
    let g_l := auxilaryFunction_dPsiMT d_phi_0 d_phi_0 mu
    let f_u := auxilaryFunction_PsiMT a_u phi_0 phi_0 d_phi_0 mu
    let g_u := auxilaryFunction_dPsiMT d_phi_0 d_phi_0 mu
    -- The source initialises this flag to `(step_max - step_min) > 0`,
    -- although its own comment describes skipping only for
    -- `step_min == step_max` (the PCL original uses `< 0`).
    let interval_converged := Dbl.lt 0 (step_max - step_min)
    let a_t := Dbl.maxStd (Dbl.minStd step_init step_max) step_min
    let x_t : V3 := fun i => x i + step_dir i * a_t
    let score_vals := calcScoreE ctx param source_grid x_t target_grid false
    let phi_t := -score_vals.value_
    let d_phi_t := -dot3 score_vals.gradient_ step_dir
    let psi_t := auxilaryFunction_PsiMT a_t phi_t phi_0 d_phi_0 mu
    let d_psi_t := auxilaryFunction_dPsiMT d_phi_t d_phi_0 mu
    let s0 : MTState :=
      { intv := ⟨a_l, f_l, g_l, a_u, f_u, g_u⟩, a_t := a_t, phi_t := phi_t,
        d_phi_t := d_phi_t, psi_t := psi_t, d_psi_t := d_psi_t,
        open_interval := true, interval_converged := interval_converged,
        step_iterations := 0 }
    let sF := mtLoop ctx param source_grid target_grid x step_dir step_max
      step_min phi_0 d_phi_0 mu nu 10 s0
    (sF.a_t, step_dir)

/-! The Newton inner loop (`computeSingleGrid`). -/

/-- Eigen `norm()`: the square root of the squared norm. -/
def normD (sqrtq : ℚ → ℚ) (v : V3) : Dbl := Dbl.sqrtD sqrtq (dot3 v v)

/-- Eigen `normalize()`: divide by the norm. -/
def normalizeV (sqrtq : ℚ → ℚ) (v : V3) : V3 :=
  fun i => v i / normD sqrtq v

/-- Everything `computeSingleGrid` returns or leaves in member state. -/
structure SGResult where
  success : Bool
  trans : M4D
  final_transformation : M4D
  converged : Bool
  nr_iterations : ℕ
  trans_probability : Dbl
  covariance : M3
  inform_matrix : M3
  transformation : M4D
  previous_transformation : M4D

/-- The `while (!converged_)` loop of `computeSingleGrid`, fuelled.  The
flag becomes true no later than iteration `max_iterations`, so the fuel
`max_iterations + 1` supplied by `computeSingleGridE` never runs out; the
fuel-0 row is dead code. -/
def sgLoop (ctx : Ctx) (param : FittingParams) (source_grid : SourceGrid)
    (target_grid : TargetGrid) (nPoints max_iterations : ℕ)
    (step_size transformation_epsilon : Dbl) (guess : M4D) :
    ℕ → V3 → ℕ → M4D → M4D → SGResult
  | 0, _, nr_iterations, transformation, previous =>
    { success := false, trans := guess, final_transformation := guess,
      converged := false, nr_iterations := nr_iterations,
      trans_probability := 0, covariance := idM3, inform_matrix := idM3,
      transformation := transformation, previous_transformation := previous }
  | fuel + 1, xytheta_p, nr_iterations, transformation, previous =>
    let score := calcScoreE ctx param source_grid xytheta_p target_grid true
    let delta_xytheta_p :=
      ctx.svdSolve score.hessian_ (fun i => -score.gradient_ i)
    let delta_p_norm := normD ctx.sqrtq delta_xytheta_p
    if Dbl.beq delta_p_norm 0 || !Dbl.beq delta_p_norm delta_p_norm then
      -- insufficient overlap: abort the whole resolution
      { success := false, trans := guess, final_transformation := guess,
        converged := Dbl.beq delta_p_norm delta_p_norm,
        nr_iterations := nr_iterations,
        trans_probability := score.value_ / Dbl.val nPoints,
        covariance := idM3, inform_matrix := idM3,
        transformation := transformation,
        previous_transformation := previous }
    else
      let dir := normalizeV ctx.sqrtq delta_xytheta_p
      let sl := computeStepLengthMT ctx param source_grid target_grid
        xytheta_p dir delta_p_norm step_size (transformation_epsilon / 2)
        score
      let delta : V3 := fun i => sl.2 i * sl.1
      let xytheta_p2 : V3 := fun i => xytheta_p i + delta i
      let p := vecToMatD ctx.cosq ctx.sinq xytheta_p2
      let nr2 := nr_iterations + 1
      let previous2 := transformation
      let transformation2 := p
      let trans_probability := score.value_ / Dbl.val nPoints
      if nr2 ≥ max_iterations ∨
          (nr2 ≠ 0 ∧ Dbl.lt (Dbl.abs sl.1) transformation_epsilon) then
        { success := true, trans := p, final_transformation := guess,
          converged := true, nr_iterations := nr2,
          trans_probability := trans_probability,
          covariance := score.hessian_,
          inform_matrix := inv3 score.hessian_,
          transformation := transformation2,
          previous_transformation := previous2 }
      else
        sgLoop ctx param source_grid target_grid nPoints max_iterations
          step_size transformation_epsilon guess fuel xytheta_p2 nr2
          transformation2 previous2

/-- `computeSingleGrid`: initialise (`nr_iterations_ = 0`,
`final_transformation_ = previous_transformation_ = guess`,
`xytheta_p = matToVec(guess)`) and run the Newton loop.
`transformation0` is the member `transformation_` on entry. -/
def computeSingleGridE (ctx : Ctx) (param : FittingParams)
    (source_grid : SourceGrid) (target_grid : TargetGrid)
    (nPoints max_iterations : ℕ) (step_size transformation_epsilon : Dbl)
    (guess transformation0 : M4D) : SGResult :=
  sgLoop ctx param source_grid target_grid nPoints max_iterations step_size
    transformation_epsilon guess (max_iterations + 1)
    (matToVecD ctx.atan2q guess) 0 transformation0 guess

/-! The multi-resolution driver (`computeTransformation`). -/

/-- The per-resolution loop of `computeTransformation`: grids are built by
the external voxel-grid builder (`sourceGridAt`, `targetGridAt` index it by
cell size), the pose threads forward; a failing resolution stops everything,
leaving the member `final_transformation_` at the value the failing
`computeSingleGrid` wrote (its entry guess).  `inl` carries the final pose
and the threaded member `transformation_`; `inr` carries the
`final_transformation_` after a failure. -/
def ctLoop (ctx : Ctx) (sourceGridAt : ℚ → SourceGrid)
    (targetGridAt : ℚ → TargetGrid) (nPoints max_iterations : ℕ)
    (step_size transformation_epsilon : Dbl) :
    List (ℚ × FittingParams) → M4D → M4D → (M4D × M4D) ⊕ M4D
  | [], transCur, transformation0 => .inl (transCur, transformation0)
  | (cs, param) :: rest, transCur, transformation0 =>
    let r := computeSingleGridE ctx param (sourceGridAt cs) (targetGridAt cs)
      nPoints max_iterations step_size transformation_epsilon transCur
      transformation0
    if r.success then
      ctLoop ctx sourceGridAt targetGridAt nPoints max_iterations step_size
        transformation_epsilon rest r.trans r.transformation
    else .inr r.final_transformation

/-- What `computeTransformation` leaves behind: the convergence flag, the
member `final_transformation_`, and the output cloud argument. -/
structure CTResult (Cloud : Type _) where
  converged : Bool
  final_transformation : M4D
  output : Cloud

/-- `computeTransformation(output, guess)`: run every resolution; on success
transform the input cloud (`transformCloud` is the external
`transformPointCloud` applied to the fixed input) and publish the pose; on
failure return with `converged_ = false`, leaving `output` untouched. -/
def computeTransformationE {Cloud : Type _} (ctx : Ctx)
    (sourceGridAt : ℚ → SourceGrid) (targetGridAt : ℚ → TargetGrid)
    (nPoints max_iterations : ℕ) (step_size transformation_epsilon : Dbl)
    (transformCloud : M4D → Cloud) (resolutions : List (ℚ × FittingParams))
    (guess transformation0 : M4D) (output0 : Cloud) : CTResult Cloud :=
  match ctLoop ctx sourceGridAt targetGridAt nPoints max_iterations
      step_size transformation_epsilon resolutions guess transformation0 with
  | .inr ft => ⟨false, ft, output0⟩
  | .inl tr => ⟨true, tr.1, transformCloud tr.1⟩

/-! The SE(2) pose codec over the reals (`vecToMat` / `matToVec`), for the
round-trip law.  Here the idealised real semantics of the trigonometric
calls is what the claim is about, so `ℝ`, `Real.cos`, `Real.sin` and
`Complex.arg` (the exact semantics of `atan2`) replace the rational
oracles. -/

/-- `std::atan2 y x`, exactly: the argument of the complex number `x + y·i`,
valued in `(-π, π]`. -/
noncomputable def atan2R (y x : ℝ) : ℝ := Complex.arg ⟨x, y⟩

/-- `vecToMat`: the 4×4 homogeneous matrix with rotation about Z by `p 2`
(`Eigen::AngleAxis(θ, UnitZ())`) and translation `(p 0, p 1, 0)`. -/
noncomputable def vecToMatR (p : Fin 3 → ℝ) : Fin 4 → Fin 4 → ℝ :=
  ![![Real.cos (p 2), -Real.sin (p 2), 0, p 0],
    ![Real.sin (p 2), Real.cos (p 2), 0, p 1],
    ![0, 0, 1, 0],
    ![0, 0, 0, 1]]

/-- `matToVec`: `(T(0,3), T(1,3), atan2(R(1,0), R(0,0)))`, with `R` the
rotational part (the linear block, for the rigid transforms at hand). -/
noncomputable def matToVecR (T : Fin 4 → Fin 4 → ℝ) : Fin 3 → ℝ :=
  ![T 0 3, T 1 3, atan2R (T 1 0) (T 0 0)]

/-! Concrete fixtures used by the closed evaluation theorems. -/

/-- The all-zero rational function, a degenerate but legitimate model for
any of the math-library oracles. -/
def qZero : ℚ → ℚ := fun _ => 0

/-- A concrete oracle bundle. -/
def ctx0 : Ctx :=
  { cosq := qZero, sinq := qZero, expq := qZero, sqrtq := qZero,
    atan2q := fun _ _ => 0, detEps := 0, tid := fun _ => 0,
    svdSolve := fun _ _ => fun _ => 0 }

/-- A source grid with no cells. -/
def emptySource : SourceGrid := ⟨[]⟩

/-- A target grid whose nearest-neighbour query returns nothing. -/
def emptyTarget : TargetGrid := ⟨fun _ => []⟩

/-- Zero fitting constants. -/
def param0 : FittingParams := ⟨0, 0, 0⟩

/-- A score triple with gradient `(1, 0, 0)`: along the direction
`(1, 0, 0)` it gives `φ'(0) = -1 < 0`, a genuine descent direction. -/
def scoreGradX : ScoreTriple := ⟨fun _ _ => 0, ![1, 0, 0], 0⟩

/-! Theorems.  Helper lemmas about `Dbl` arithmetic first. -/

theorem Dbl.neg_add_eq_sub (a b : Dbl) : -a + b = b - a := by
  cases a <;> cases b <;>
    first
      | rfl
      | (show Dbl.val _ = Dbl.val _
         congr 1
         ring)

theorem Dbl.beq_val_mul_zero (q : ℚ) : Dbl.beq (Dbl.val q * 0) 0 = true := by
  show Dbl.beq (Dbl.val (q * 0)) (Dbl.val 0) = true
  simp [Dbl.beq]

theorem Dbl.two_mul_sub (a b : Dbl) : 2 * a - 2 * b = 2 * (a - b) := by
  cases a <;> cases b <;>
    first
      | rfl
      | (show Dbl.val _ = Dbl.val _
         congr 1
         push_cast
         ring)

/-- C4, counterexample.  The claim says construction from an outlier ratio
outside (0,1) fails with `InvalidParameter` at configuration time; the
constructor has no validation or failure path at all, so at ratio 2 and
cell size 1 it still succeeds. -/
theorem c4_construction_never_fails_cex :
    fittingParamsAt qZero qZero 2 1 ≠ FitResult.invalidParameter := by
  simp [fittingParamsAt]

/-- C4, amended.  For every outlier ratio and cell size — there is no
parameter validation anywhere — construction succeeds and produces
`(d1, d2, d2/2)` by the closed-form formulas with `ρ = 1 / cell_size`. -/
theorem c4_fitting_params_formulas :
    ∀ (logq expq : ℚ → ℚ) (r cellSize : ℚ),
      (let ρ := 1 / cellSize
      let c1 := 10 * (1 - r)
      let c2 := r / ρ ^ 2
      let d3 := -logq c2
      let d1 := -logq (c1 + c2) - d3
      let d2 := -2 * logq ((-logq (c1 * expq (-(1 / 2)) + c2) - d3) / d1)
      fittingParamsAt logq expq r cellSize
        = .ok ⟨Dbl.val d1, Dbl.val d2, Dbl.val (d2 / 2)⟩) := by
  intro logq expq r cellSize
  rfl

/-- C6.  For every pose whose angle lies in `(-π, π]`, decoding the encoded
homogeneous matrix recovers the pose exactly (in the idealised real
semantics). -/
theorem c6_pose_roundtrip (p : Fin 3 → ℝ)
    (hθ : p 2 ∈ Set.Ioc (-Real.pi) Real.pi) :
    matToVecR (vecToMatR p) = p := by
  funext i
  fin_cases i
  · rfl
  · rfl
  · show atan2R (Real.sin (p 2)) (Real.cos (p 2)) = p 2
    unfold atan2R
    rw [Complex.mk_eq_add_mul_I, Complex.ofReal_cos, Complex.ofReal_sin]
    exact Complex.arg_cos_add_sin_mul_I hθ

/-- C6, witness: a concrete round trip through the codec. -/
theorem c6_pose_roundtrip_witness :
    matToVecR (vecToMatR ![1, 2, 0]) = ![1, 2, 0] :=
  c6_pose_roundtrip ![1, 2, 0] (by
    show (0 : ℝ) ∈ Set.Ioc (-Real.pi) Real.pi
    exact ⟨neg_lt_zero.mpr Real.pi_pos, Real.pi_pos.le⟩)

/-- The inverted skip guard, in general: whenever `step_max > step_min`
(the normal configuration), `interval_converged` starts out true, the
More–Thuente loop body never runs, and the returned step is just the
clamped initial step (or 0 when `φ'(0) = 0`). -/
theorem computeStepLengthMT_inverted_guard :
    ∀ (ctx : Ctx) (param : FittingParams) (sg : SourceGrid) (tg : TargetGrid)
      (x dir : V3) (si smax smin : Dbl) (score : ScoreTriple),
      Dbl.lt 0 (smax - smin) = true →
      (computeStepLengthMT ctx param sg tg x dir si smax smin score).1
        = (if Dbl.le 0 (-dot3 score.gradient_ dir)
              && Dbl.beq (-dot3 score.gradient_ dir) 0 then 0
           else Dbl.maxStd (Dbl.minStd si smax) smin) := by
  intro ctx param sg tg x dir si smax smin score h
  by_cases h0 : (Dbl.le 0 (-dot3 score.gradient_ dir)
      && Dbl.beq (-dot3 score.gradient_ dir) 0) = true
  · simp only [computeStepLengthMT, h0, if_true, if_pos]
  · simp only [computeStepLengthMT, h0, Bool.false_eq_true, if_false,
      mtLoop, mtCond, h, Bool.not_true, Bool.false_and, if_neg]

/-- C1.  The claim describes up to 10 More–Thuente iterations with trial
selection, clamping, re-evaluation and interval updates; the code
initialises `interval_converged = (step_max - step_min) > 0`, so with
`step_max = 1 > step_min = 1/2` the loop body never executes.  Concretely:
from `x = 0`, direction `(1,0,0)`, `φ'(0) = -1`, initial step 7, the search
returns the clamped initial step 1 after zero iterations, even though the
score at that trial step is zero, so `ψ(1) = 10⁻⁴ > 0` and the
sufficient-decrease condition fails there — the loop the claim (and the
code's own comment) describe would have kept iterating. -/
theorem c1_line_search_skipped :
    (computeStepLengthMT ctx0 param0 emptySource emptyTarget (fun _ => 0)
        ![1, 0, 0] (Dbl.val 7) (Dbl.val 1) (Dbl.val (1 / 2)) scoreGradX).1
      = Dbl.val 1
    ∧ (calcScoreE ctx0 param0 emptySource
        (fun i => (0 : Dbl) + (![1, 0, 0] : V3) i * Dbl.val 1) emptyTarget
        false).value_ = 0
    ∧ Dbl.le (auxilaryFunction_PsiMT (Dbl.val 1) 0 0 (Dbl.val (-1))
        (Dbl.val (1 / 10000))) 0 = false := by
  refine ⟨?_, ?_, ?_⟩ <;> with_unfolding_all rfl

/-- Row index arithmetic for the 6..8 blocks. -/
theorem fin9_sub6_lt (j : Fin 9) : j.1 - 6 < 3 := by
  have := j.isLt; omega

/-- Reading one entry of a written 3×3 block (the definition, restated). -/
theorem setBlk33_apply {m n : ℕ} (M : Fin m → Fin n → Dbl) (r c : ℕ)
    (hr : r + 3 ≤ m) (hc : c + 3 ≤ n) (B : M3) (a : Fin m) (b : Fin n) :
    setBlk33 M r c hr hc B a b
      = if h : r ≤ a.1 ∧ a.1 < r + 3 ∧ c ≤ b.1 ∧ b.1 < c + 3 then
          B ⟨a.1 - r, by omega⟩ ⟨b.1 - c, by omega⟩
        else M a b := rfl

/-- Reading one entry of a written 3×1 block (the definition, restated). -/
theorem setBlk31_apply {m n : ℕ} (M : Fin m → Fin n → Dbl) (r : ℕ)
    (c : Fin n) (hr : r + 3 ≤ m) (B : Fin 3 → Dbl) (a : Fin m) (b : Fin n) :
    setBlk31 M r c hr B a b
      = if h : r ≤ a.1 ∧ a.1 < r + 3 ∧ b = c then B ⟨a.1 - r, by omega⟩
        else M a b := rfl

/-- Writing a 3×3 block at columns 6..8 of a zero 3×9 matrix reads back as:
the block entry where the column is ≥ 6, zero elsewhere. -/
theorem zestPlacement (B : M3) (a : Fin 3) (b : Fin 9) :
    setBlk33 (fun _ _ => (0 : Dbl)) 0 6 (by decide) (by decide) B a b
      = (if _h : 6 ≤ b.1 then B a ⟨b.1 - 6, fin9_sub6_lt b⟩ else 0) := by
  by_cases hb : 6 ≤ b.1
  · rw [setBlk33_apply, dif_pos ⟨Nat.zero_le _, a.isLt, hb, b.isLt⟩,
      dif_pos hb]
    rfl
  · rw [setBlk33_apply, dif_neg (fun hcon => hb hcon.2.2.1), dif_neg hb]

/-- Writing a 3×3 block at rows/cols 6..8 of a zero 9×9 matrix reads back
as: the block entry where row and column are ≥ 6, zero elsewhere. -/
theorem zhestPlacement (B : M3) (a b : Fin 9) :
    setBlk33 (fun _ _ => (0 : Dbl)) 6 6 (by decide) (by decide) B a b
      = (if _h : 6 ≤ a.1 ∧ 6 ≤ b.1 then
          B ⟨a.1 - 6, fin9_sub6_lt a⟩ ⟨b.1 - 6, fin9_sub6_lt b⟩
        else 0) := by
  by_cases h : 6 ≤ a.1 ∧ 6 ≤ b.1
  · rw [setBlk33_apply, dif_pos ⟨h.1, a.isLt, h.2, b.isLt⟩, dif_pos h]
  · rw [setBlk33_apply, dif_neg (fun hcon => h ⟨hcon.1, hcon.2.2.1⟩),
      dif_neg h]

/-- Writing a 3×1 block at rows 6..8 of column 2 of a zero 9×3 matrix reads
back as: the vector entry where the row is ≥ 6 and the column is 2, zero
elsewhere. -/
theorem hestPlacement (B : Fin 3 → Dbl) (a : Fin 9) (b : Fin 3) :
    setBlk31 (fun _ _ => (0 : Dbl)) 6 2 (by decide) B a b
      = (if _h : 6 ≤ a.1 ∧ b = 2 then B ⟨a.1 - 6, fin9_sub6_lt a⟩
         else 0) := by
  by_cases h : 6 ≤ a.1 ∧ b = 2
  · rw [setBlk31_apply, dif_pos ⟨h.1, a.isLt, h.2⟩, dif_pos h]
  · rw [setBlk31_apply, dif_neg (fun hcon => h ⟨hcon.1, hcon.2.2⟩),
      dif_neg h]

/-- C7.  `computeDerivatives` sets exactly the listed entries and zeroes all
others: `Jest` has the top-left 2×2 identity with `Jest(0,2) = -x₁`,
`Jest(1,2) = x₀`; `Zest` columns 6..8 hold the symmetric θ-slice built from
the covariance entries; and only when the Hessian is requested, `Hest`
column 2 rows 6..8 equal `(-x₀, -x₁, 0)` and `ZHest` rows/cols 6..8 hold
the second-derivative block. -/
theorem c7_derivative_entries :
    ∀ (x : V3) (cov : M3) (calc_hessian : Bool),
      (computeDerivatives x cov calc_hessian).Jest
          = ![![1, 0, -x 1], ![0, 1, x 0], ![0, 0, 0]]
      ∧ (computeDerivatives x cov calc_hessian).Zest
          = (fun i j =>
              if _h : 6 ≤ j.1 then
                (![![-2 * cov 0 1, cov 0 0 - cov 1 1, -cov 1 2],
                   ![cov 0 0 - cov 1 1, 2 * cov 0 1, cov 0 2],
                   ![-cov 1 2, cov 0 2, 0]] : M3) i
                  ⟨j.1 - 6, fin9_sub6_lt j⟩
              else 0)
      ∧ (computeDerivatives x cov calc_hessian).Hest
          = (if calc_hessian then
              (fun i j =>
                if _h : 6 ≤ i.1 ∧ j = 2 then
                  (![-x 0, -x 1, 0] : Fin 3 → Dbl) ⟨i.1 - 6, fin9_sub6_lt i⟩
                else 0)
            else fun _ _ => 0)
      ∧ (computeDerivatives x cov calc_hessian).ZHest
          = (if calc_hessian then
              (fun i j =>
                if _h : 6 ≤ i.1 ∧ 6 ≤ j.1 then
                  (![![2 * (cov 1 1 - cov 0 0), -4 * cov 0 1, -cov 0 2],
                     ![-4 * cov 0 1, 2 * (cov 0 0 - cov 1 1), -cov 1 2],
                     ![-cov 0 2, -cov 1 2, 0]] : M3)
                    ⟨i.1 - 6, fin9_sub6_lt i⟩ ⟨j.1 - 6, fin9_sub6_lt j⟩
                else 0)
            else fun _ _ => 0) := by
  intro x cov calc_hessian
  refine ⟨?_, ?_, ?_, ?_⟩
  · -- Jest: two entry writes over the 2×2 identity
    have hJ : (computeDerivatives x cov calc_hessian).Jest
        = updE (updE (setTopLeftId2 (fun _ _ => 0)) 0 2 (-x 1)) 1 2 (x 0) := by
      cases calc_hessian <;> rfl
    rw [hJ]
    funext a b
    fin_cases a <;> fin_cases b <;> rfl
  · -- Zest: the θ-slice block at columns 6..8
    have hZ : (computeDerivatives x cov calc_hessian).Zest
        = setBlk33 (fun _ _ => 0) 0 6 (by decide) (by decide)
            ![![-2 * cov 0 1, -cov 1 1 + cov 0 0, -cov 1 2],
              ![-cov 1 1 + cov 0 0, 2 * cov 0 1, cov 0 2],
              ![-cov 1 2, cov 0 2, 0]] := by
      cases calc_hessian <;> rfl
    rw [hZ, Dbl.neg_add_eq_sub (cov 1 1) (cov 0 0)]
    funext a b
    exact zestPlacement _ a b
  · -- Hest
    cases calc_hessian
    · rfl
    · have hH : (computeDerivatives x cov true).Hest
          = setBlk31 (fun _ _ => 0) 6 2 (by decide) ![-x 0, -x 1, 0] := rfl
      rw [hH, if_pos rfl]
      funext a b
      exact hestPlacement _ a b
  · -- ZHest
    cases calc_hessian
    · rfl
    · have hZH : (computeDerivatives x cov true).ZHest
          = setBlk33 (fun _ _ => 0) 6 6 (by decide) (by decide)
              ![![2 * cov 1 1 - 2 * cov 0 0, -4 * cov 0 1, -cov 0 2],
                ![-4 * cov 0 1, 2 * cov 0 0 - 2 * cov 1 1, -cov 1 2],
                ![-cov 0 2, -cov 1 2, 0]] := rfl
      rw [hZH, Dbl.two_mul_sub (cov 1 1) (cov 0 0),
        Dbl.two_mul_sub (cov 0 0) (cov 1 1)]
      funext a b
      exact zhestPlacement _ a b

/-- C5.  The per-pair score absorbs numerical failures locally: when the
covariance sum fails Eigen's invertibility check the pair contributes the
all-zero triple; when the Mahalanobis distance is NaN it likewise
contributes the all-zero triple; no error is raised either way (the
function is total); and otherwise the returned value is
`-d1 · exp(-d2_half · d)`. -/
theorem c5_per_pair_zero_guards :
    ∀ (expq : ℚ → ℚ) (detEps : ℚ) (mean_source : V3) (cov_source : M3)
      (cell_t : Leaf) (deriv : JacobianHessianDerivatives)
      (param : FittingParams) (calc_hessian : Bool),
      let diff_mean : V3 := fun i => mean_source i - cell_t.mean i
      let cov_sum : M3 := fun i j => cell_t.cov i j + cov_source i j
      let icov := (inverseAndDetCheck detEps cov_sum).1
      let dist := dot3 diff_mean (mulMV icov diff_mean)
      ((inverseAndDetCheck detEps cov_sum).2.2 = false →
        calcSourceCellScore expq detEps mean_source cov_source cell_t deriv
          param calc_hessian = 0)
      ∧ ((inverseAndDetCheck detEps cov_sum).2.2 = true → dist = Dbl.nan →
        calcSourceCellScore expq detEps mean_source cov_source cell_t deriv
          param calc_hessian = 0)
      ∧ ((inverseAndDetCheck detEps cov_sum).2.2 = true → dist ≠ Dbl.nan →
        (calcSourceCellScore expq detEps mean_source cov_source cell_t deriv
          param calc_hessian).value_
          = -param.gauss_d1_
            * Dbl.lift1 expq (-param.gauss_d2__half_ * dist)) := by
  intro expq detEps mean_source cov_source cell_t deriv param calc_hessian
  intro diff_mean cov_sum icov dist
  refine ⟨?_, ?_, ?_⟩
  · intro h
    unfold_let cov_sum diff_mean at h
    simp only [calcSourceCellScore]
    rw [if_pos h]
  · intro h hnan
    unfold_let cov_sum diff_mean at h
    unfold_let dist icov cov_sum diff_mean at hnan
    simp only [calcSourceCellScore]
    rw [h, if_neg (by simp), hnan]
    rw [if_pos (by rfl)]
  · intro h hd
    unfold_let cov_sum diff_mean at h
    unfold_let dist icov cov_sum diff_mean at hd ⊢
    simp only [calcSourceCellScore]
    rw [h, if_neg (by simp)]
    cases hdist : dot3 (fun i => mean_source i - cell_t.mean i)
        (mulMV (inverseAndDetCheck detEps
          (fun i j => cell_t.cov i j + cov_source i j)).1
          (fun i => mean_source i - cell_t.mean i)) with
    | nan => exact absurd hdist hd
    | val q =>
      rw [if_neg (by simp [Dbl.beq_val_mul_zero])]

theorem initCellSizesE_length (b : ℚ) (L : ℕ) :
    (initCellSizesE b L).length = L := by
  simp [initCellSizesE]

theorem initCellSizesE_getD (b : ℚ) (L i : ℕ) (hi : i < L) :
    (initCellSizesE b L).getD i 0 = b * 2 ^ (L - 1 - i) := by
  have hlen : (initCellSizesE b L).length = L := initCellSizesE_length b L
  rw [List.getD_eq_getElem _ _ (by rw [hlen]; exact hi)]
  simp only [initCellSizesE]
  rw [List.getElem_map, List.getElem_reverse, List.getElem_range]
  simp [List.length_range]

theorem initCellSizesE_pairwise (b : ℚ) (L : ℕ) (hb : 0 < b) :
    (initCellSizesE b L).Pairwise (fun u v => u > v) := by
  rw [initCellSizesE, List.pairwise_iff_getElem]
  intro i j hi hj hij
  have hi' : i < L := by simpa using hi
  have hj' : j < L := by simpa using hj
  rw [List.getElem_map, List.getElem_reverse, List.getElem_range,
    List.getElem_map, List.getElem_reverse, List.getElem_range]
  simp only [List.length_range]
  exact mul_lt_mul_of_pos_left
    (pow_lt_pow_right₀ (by norm_num) (by omega)) hb

theorem sortedVec_pairwise_ge (v : List ℚ) :
    ((v.insertionSort (· ≤ ·)).reverse).Pairwise (fun u w => u ≥ w) := by
  rw [List.pairwise_reverse]
  have hs : List.Sorted (· ≤ ·) (v.insertionSort (· ≤ ·)) :=
    List.sorted_insertionSort _ v
  exact hs.imp (fun h => h)

theorem sortedVec_pairwise_gt (v : List ℚ) (hnd : v.Nodup) :
    ((v.insertionSort (· ≤ ·)).reverse).Pairwise (fun u w => u > w) := by
  rw [List.pairwise_reverse]
  have hs : List.Sorted (· ≤ ·) (v.insertionSort (· ≤ ·)) :=
    List.sorted_insertionSort _ v
  have hnd' : (v.insertionSort (· ≤ ·)).Nodup :=
    (List.perm_insertionSort _ v).nodup_iff.mpr hnd
  exact (hs.and hnd').imp (fun hab => lt_of_le_of_ne hab.1 hab.2)

/-- C8, counterexample.  `setCellSize` with the explicit vector `[1, 1]`
(a legal call) leaves `cell_sizes = [1, 1]`, which is not strictly
decreasing, so the claimed invariant fails after this configuring
operation. -/
theorem c8_duplicate_sizes_cex :
    ¬ ((setCellSizeVec [1, 1] d2dDefault).cell_sizes).Pairwise
        (fun u v => u > v) := by
  intro hp
  have hev : (setCellSizeVec [1, 1] d2dDefault).cell_sizes = [1, 1] := by
    with_unfolding_all rfl
  rw [hev] at hp
  rcases List.pairwise_cons.mp hp with ⟨h1, _⟩
  exact absurd (h1 1 (by simp)) (lt_irrefl 1)

/-- C8, amended.  The derived cell-size sequences: a base-`b`, `L`-layer
construction has length `L` and entries `b·2^(L-1-i)` — so it equals
`{b·2^(L-1), …, b·2, b}` — and is strictly decreasing whenever `b > 0`
(default construction included, with sizes `[2, 1, 1/2, 1/4]`); an explicit
size vector is sorted non-increasing, and strictly decreasing when its
entries are distinct.  (`setNumLayers` is not modelled: it invokes
`initCellSizes()` without the required `base_size` argument.) -/
theorem c8_cell_sizes_order :
    (∀ (b : ℚ) (L : ℕ), (initCellSizesE b L).length = L)
    ∧ (∀ (b : ℚ) (L i : ℕ), i < L →
        (initCellSizesE b L).getD i 0 = b * 2 ^ (L - 1 - i))
    ∧ (∀ (b : ℚ) (L : ℕ), 0 < b →
        (initCellSizesE b L).Pairwise (fun u v => u > v))
    ∧ (d2dDefault.cell_sizes = [2, 1, 1 / 2, 1 / 4]
        ∧ d2dDefault.cell_sizes.Pairwise (fun u v => u > v))
    ∧ (∀ (b : ℚ) (st : RegState), 0 < b →
        ((setCellSizeScalar b st).cell_sizes).Pairwise (fun u v => u > v))
    ∧ (∀ (v : List ℚ) (st : RegState),
        ((setCellSizeVec v st).cell_sizes).Pairwise (fun u v => u ≥ v))
    ∧ (∀ (v : List ℚ) (st : RegState), v.Nodup →
        ((setCellSizeVec v st).cell_sizes).Pairwise (fun u v => u > v)) :=
  ⟨initCellSizesE_length,
   fun b L i hi => initCellSizesE_getD b L i hi,
   initCellSizesE_pairwise,
   ⟨by with_unfolding_all rfl, initCellSizesE_pairwise (1 / 4) 4 (by norm_num)⟩,
   fun b st hb => initCellSizesE_pairwise b st.layer_count hb,
   fun v st => sortedVec_pairwise_ge v,
   fun v st hnd => sortedVec_pairwise_gt v hnd⟩

/-- C3.  The robust wrapper's outcome is exactly the staged arbitration the
claim describes, for every behaviour of the inner aligners and the
validator, and independently of the junk initially in the uninitialised
`first_trans`. -/
theorem c3_robust_arbitration :
    ∀ (d2dA corrA : M4Q → Bool × M4Q) (validator : M4Q → ℚ)
      (guess firstTransInit : M4Q),
      robustAlign d2dA corrA validator guess firstTransInit
        = robustAlignClaim d2dA corrA validator guess := by
  intro d2dA corrA validator guess junk
  simp only [robustAlign, robustAlignClaim, robustArbitrate]
  by_cases h1 : (d2dA guess).1 = true ∧ validator (d2dA guess).2 > 7 / 10
  · rw [if_neg (not_not_intro h1), if_pos h1,
      if_neg (not_lt.mpr (by linarith [h1.2]))]
  · rw [if_pos h1, if_neg h1]
    by_cases hc : (corrA guess).1 = true
    · have hc' : ¬(corrA guess).1 = false := by simp [hc]
      rw [if_neg (not_not_intro hc), if_neg hc']
      by_cases h2 : (d2dA (corrA guess).2).1 = true
      · have h2' : ¬(d2dA (corrA guess).2).1 = false := by simp [h2]
        rw [if_neg (not_not_intro h2), if_neg h2']
        by_cases hs2 : validator (d2dA (corrA guess).2).2 < 2 / 5
        · rw [if_pos hs2, if_neg (not_le.mpr hs2)]
        · rw [if_neg hs2, if_pos (not_lt.mp hs2)]
      · have h2' : (d2dA (corrA guess).2).1 = false := by
          revert h2; cases (d2dA (corrA guess).2).1 <;> simp
        rw [if_pos h2, if_pos h2']
    · have hc' : (corrA guess).1 = false := by
        revert hc; cases (corrA guess).1 <;> simp
      rw [if_pos hc, if_pos hc']

theorem foldl_add_init {M : Type*} [AddCommMonoid M] {α : Type*}
    (f : α → M) (l : List α) (a : M) :
    l.foldl (fun x y => x + f y) a = a + l.foldl (fun x y => x + f y) 0 := by
  induction l generalizing a with
  | nil => simp
  | cons h t ih =>
    simp only [List.foldl_cons]
    rw [ih (a + f h), ih (0 + f h), zero_add, add_assoc]

theorem foldl_add_eq_sum {M : Type*} [AddCommMonoid M] {α : Type*}
    (f : α → M) (l : List α) :
    l.foldl (fun x y => x + f y) 0 = (l.map f).sum := by
  induction l with
  | nil => simp
  | cons h t ih =>
    simp only [List.foldl_cons, List.map_cons, List.sum_cons]
    rw [foldl_add_init, ih, zero_add]

theorem sum_foldl_update {α : Type*} (g : α → Fin 8) (f : α → ScoreTriple) :
    ∀ (l : List α) (s0 : Fin 8 → ScoreTriple),
      (∑ j, (l.foldl (fun slots p =>
          Function.update slots (g p) (slots (g p) + f p)) s0) j)
        = (∑ j, s0 j) + (l.map f).sum := by
  intro l
  induction l with
  | nil => intro s0; simp
  | cons h t ih =>
    intro s0
    simp only [List.foldl_cons, List.map_cons, List.sum_cons]
    have hupd : (∑ j, Function.update s0 (g h) (s0 (g h) + f h) j)
        = (∑ j, s0 j) + f h := by
      rw [Finset.sum_update_of_mem (Finset.mem_univ _), ← Finset.erase_eq,
        ← Finset.add_sum_erase _ s0 (Finset.mem_univ (g h))]
      abel
    rw [ih, hupd, add_assoc]

theorem foldl_update_untouched {α : Type*} (g : α → Fin 8)
    (f : α → ScoreTriple) (hg : ∀ a, (g a).1 < 2) :
    ∀ (l : List α) (s0 : Fin 8 → ScoreTriple) (j : Fin 8), 2 ≤ j.1 →
      (l.foldl (fun slots p =>
        Function.update slots (g p) (slots (g p) + f p)) s0) j = s0 j := by
  intro l
  induction l with
  | nil => intro s0 j hj; rfl
  | cons h t ih =>
    intro s0 j hj
    simp only [List.foldl_cons]
    rw [ih _ j hj]
    exact Function.update_noteq
      (by intro he; rw [he] at hj; have := hg h; omega) _ _

theorem calcScoreSlots_eq (ctx : Ctx) (param : FittingParams) (trans : V3)
    (targetNDT : TargetGrid) (calc_hessian : Bool) (cells : List Leaf) :
    calcScoreSlots ctx param trans targetNDT calc_hessian cells
      = cells.enum.foldl (fun slots p =>
          Function.update slots ((ctx.tid p.1).castLE (by omega))
            (slots ((ctx.tid p.1).castLE (by omega))
              + cellScoreContribution ctx param trans targetNDT calc_hessian
                  p.2))
          (fun _ => 0) := by
  unfold calcScoreSlots
  congr 1
  funext slots p
  exact congrArg (Function.update slots _) (foldl_add_init _ _ _)

/-- C9.  The parallel score accumulator equals the sequential fold of the
per-cell contributions, for every assignment of cells to the two worker
threads; the six accumulator slots no thread owns stay at the zero triple,
the identity of the element-wise addition. -/
theorem c9_parallel_reduction :
    ∀ (ctx : Ctx) (param : FittingParams) (sourceNDT : SourceGrid)
      (trans : V3) (targetNDT : TargetGrid) (calc_hessian : Bool),
      calcScoreE ctx param sourceNDT trans targetNDT calc_hessian
        = calcScoreSeq ctx param sourceNDT trans targetNDT calc_hessian
      ∧ (∀ j : Fin 8, 2 ≤ j.1 →
          calcScoreSlots ctx param trans targetNDT calc_hessian
            sourceNDT.leaves j = 0) := by
  intro ctx param sourceNDT trans targetNDT calc_hessian
  constructor
  · unfold calcScoreE calcScoreSeq
    rw [calcScoreSlots_eq, foldl_add_eq_sum, ← Fin.sum_univ_def,
      sum_foldl_update, foldl_add_eq_sum]
    simp only [Finset.sum_const_zero, zero_add]
    have hcomp :
        (fun p : ℕ × Leaf =>
          cellScoreContribution ctx param trans targetNDT calc_hessian p.2)
          = (cellScoreContribution ctx param trans targetNDT calc_hessian)
              ∘ Prod.snd := rfl
    rw [hcomp, ← List.map_map, List.enum_map_snd]
  · intro j hj
    rw [calcScoreSlots_eq]
    exact foldl_update_untouched _ _
      (fun a => by simpa using (ctx.tid a.1).isLt) _ _ j hj

set_option maxHeartbeats 1600000 in
theorem sgLoop_abort (ctx : Ctx) (param : FittingParams)
    (source_grid : SourceGrid) (target_grid : TargetGrid)
    (nPoints max_iterations : ℕ) (step_size transformation_epsilon : Dbl)
    (guess : M4D) (fuel : ℕ) (xytheta_p : V3) (nr_iterations : ℕ)
    (transformation previous : M4D) (dpn : Dbl)
    (hd : dpn = normD ctx.sqrtq (ctx.svdSolve
      (calcScoreE ctx param source_grid xytheta_p target_grid true).hessian_
      (fun i =>
        -(calcScoreE ctx param source_grid xytheta_p target_grid
            true).gradient_ i)))
    (h : (Dbl.beq dpn 0 || !Dbl.beq dpn dpn) = true) :
    sgLoop ctx param source_grid target_grid nPoints max_iterations
      step_size transformation_epsilon guess (fuel + 1) xytheta_p
      nr_iterations transformation previous =
    { success := false, trans := guess, final_transformation := guess,
      converged := Dbl.beq dpn dpn, nr_iterations := nr_iterations,
      trans_probability :=
        (calcScoreE ctx param source_grid xytheta_p target_grid
          true).value_ / Dbl.val nPoints,
      covariance := idM3, inform_matrix := idM3,
      transformation := transformation,
      previous_transformation := previous } := by
  subst hd
  simp only [sgLoop, if_pos h]

/-- C2.  In any state of the Newton loop (so in every iteration), if the
solved step has norm 0 the loop aborts with the converged flag set, identity
covariance and information matrix, failure as the return value, and the
score value over the point count as the transformation probability; if the
norm is NaN the same abort happens but the converged flag stays false. -/
theorem c2_insufficient_overlap :
    ∀ (ctx : Ctx) (param : FittingParams) (source_grid : SourceGrid)
      (target_grid : TargetGrid) (nPoints max_iterations : ℕ)
      (step_size transformation_epsilon : Dbl) (guess : M4D) (fuel : ℕ)
      (xytheta_p : V3) (nr_iterations : ℕ) (transformation previous : M4D),
      let score :=
        calcScoreE ctx param source_grid xytheta_p target_grid true
      let delta := ctx.svdSolve score.hessian_ (fun i => -score.gradient_ i)
      let n := normD ctx.sqrtq delta
      let r := sgLoop ctx param source_grid target_grid nPoints
        max_iterations step_size transformation_epsilon guess (fuel + 1)
        xytheta_p nr_iterations transformation previous
      (n = Dbl.val 0 →
        r.success = false ∧ r.converged = true ∧ r.covariance = idM3
          ∧ r.inform_matrix = idM3
          ∧ r.trans_probability = score.value_ / Dbl.val nPoints)
      ∧ (n = Dbl.nan →
        r.success = false ∧ r.converged = false ∧ r.covariance = idM3
          ∧ r.inform_matrix = idM3
          ∧ r.trans_probability = score.value_ / Dbl.val nPoints) := by
  intro ctx param source_grid target_grid nPoints max_iterations step_size
    transformation_epsilon guess fuel xytheta_p nr_iterations transformation
    previous
  intro score delta n r
  constructor
  · intro h
    unfold_let n delta score at h
    unfold_let r
    rw [sgLoop_abort ctx param source_grid target_grid nPoints
      max_iterations step_size transformation_epsilon guess fuel xytheta_p
      nr_iterations transformation previous (Dbl.val 0) h.symm
      (by with_unfolding_all rfl)]
    exact ⟨rfl, by with_unfolding_all rfl, rfl, rfl, rfl⟩
  · intro h
    unfold_let n delta score at h
    unfold_let r
    rw [sgLoop_abort ctx param source_grid target_grid nPoints
      max_iterations step_size transformation_epsilon guess fuel xytheta_p
      nr_iterations transformation previous Dbl.nan h.symm rfl]
    exact ⟨rfl, rfl, rfl, rfl, rfl⟩

theorem sgLoop_final_transformation (ctx : Ctx) (param : FittingParams)
    (source_grid : SourceGrid) (target_grid : TargetGrid)
    (nPoints max_iterations : ℕ) (step_size transformation_epsilon : Dbl)
    (guess : M4D) :
    ∀ (fuel : ℕ) (xytheta_p : V3) (nr_iterations : ℕ)
      (transformation previous : M4D),
      (sgLoop ctx param source_grid target_grid nPoints max_iterations
        step_size transformation_epsilon guess fuel xytheta_p nr_iterations
        transformation previous).final_transformation = guess := by
  intro fuel
  induction fuel with
  | zero => intro xytheta_p nr_iterations transformation previous; rfl
  | succ fuel ih =>
    intro xytheta_p nr_iterations transformation previous
    simp only [sgLoop]
    split
    · rfl
    · split
      · rfl
      · exact ih _ _ _ _

theorem ctLoop_append (ctx : Ctx) (sourceGridAt : ℚ → SourceGrid)
    (targetGridAt : ℚ → TargetGrid) (nPoints max_iterations : ℕ)
    (step_size transformation_epsilon : Dbl) :
    ∀ (pre l : List (ℚ × FittingParams)) (g tr0 : M4D),
      ctLoop ctx sourceGridAt targetGridAt nPoints max_iterations step_size
          transformation_epsilon (pre ++ l) g tr0
        = (match ctLoop ctx sourceGridAt targetGridAt nPoints max_iterations
              step_size transformation_epsilon pre g tr0 with
           | .inl p => ctLoop ctx sourceGridAt targetGridAt nPoints
              max_iterations step_size transformation_epsilon l p.1 p.2
           | .inr f => .inr f) := by
  intro pre
  induction pre with
  | nil => intro l g tr0; rfl
  | cons hd tl ih =>
    intro l g tr0
    cases hd with
    | mk cs param =>
      simp only [List.cons_append, ctLoop]
      split
      · exact ih l _ _
      · rfl

/-- C10.  When a resolution of the multi-resolution schedule fails,
`computeTransformation` reports `converged = false`, leaves the output
cloud untouched, and leaves `final_transformation_` at the entry pose of
the failing resolution (the pose the previous resolutions produced, or the
original guess at the coarsest one). -/
theorem c10_failure_frame :
    ∀ {Cloud : Type} (ctx : Ctx) (sourceGridAt : ℚ → SourceGrid)
      (targetGridAt : ℚ → TargetGrid) (nPoints max_iterations : ℕ)
      (step_size transformation_epsilon : Dbl)
      (pre : List (ℚ × FittingParams)) (cs : ℚ) (param : FittingParams)
      (rest : List (ℚ × FittingParams)) (guess transformation0 : M4D)
      (transformCloud : M4D → Cloud) (output0 : Cloud) (t trm : M4D),
      ctLoop ctx sourceGridAt targetGridAt nPoints max_iterations step_size
          transformation_epsilon pre guess transformation0
        = .inl (t, trm) →
      (computeSingleGridE ctx param (sourceGridAt cs) (targetGridAt cs)
          nPoints max_iterations step_size transformation_epsilon t
          trm).success = false →
      (computeTransformationE ctx sourceGridAt targetGridAt nPoints
          max_iterations step_size transformation_epsilon transformCloud
          (pre ++ (cs, param) :: rest) guess transformation0
          output0).converged = false
      ∧ (computeTransformationE ctx sourceGridAt targetGridAt nPoints
          max_iterations step_size transformation_epsilon transformCloud
          (pre ++ (cs, param) :: rest) guess transformation0
          output0).output = output0
      ∧ (computeTransformationE ctx sourceGridAt targetGridAt nPoints
          max_iterations step_size transformation_epsilon transformCloud
          (pre ++ (cs, param) :: rest) guess transformation0
          output0).final_transformation = t := by
  intro Cloud ctx sourceGridAt targetGridAt nPoints max_iterations step_size
    transformation_epsilon pre cs param rest guess transformation0
    transformCloud output0 t trm hpre hfail
  have hl : ctLoop ctx sourceGridAt targetGridAt nPoints max_iterations
      step_size transformation_epsilon (pre ++ (cs, param) :: rest) guess
      transformation0 = .inr t := by
    rw [ctLoop_append, hpre]
    simp only [ctLoop]
    rw [if_neg (by simp [hfail])]
    rw [computeSingleGridE, sgLoop_final_transformation]
  unfold computeTransformationE
  rw [hl]
  exact ⟨rfl, rfl, rfl⟩

/-- C10, witness: a concrete schedule whose first (and only) resolution
aborts — empty grids give a zero score, the solver oracle returns the zero
step, its norm is 0 — so the driver reports no convergence, the output
stays untouched, and the final transformation stays at the guess. -/
theorem c10_failure_frame_witness :
    (computeTransformationE ctx0 (fun _ => emptySource)
        (fun _ => emptyTarget) 1 35 (Dbl.val (1 / 10)) (Dbl.val (1 / 10))
        (fun _ => (true : Bool)) ([] ++ (1, param0) :: []) idM4D idM4D
        false).converged = false
    ∧ (computeTransformationE ctx0 (fun _ => emptySource)
        (fun _ => emptyTarget) 1 35 (Dbl.val (1 / 10)) (Dbl.val (1 / 10))
        (fun _ => (true : Bool)) ([] ++ (1, param0) :: []) idM4D idM4D
        false).output = false
    ∧ (computeTransformationE ctx0 (fun _ => emptySource)
        (fun _ => emptyTarget) 1 35 (Dbl.val (1 / 10)) (Dbl.val (1 / 10))
        (fun _ => (true : Bool)) ([] ++ (1, param0) :: []) idM4D idM4D
        false).final_transformation = idM4D :=
  c10_failure_frame ctx0 (fun _ => emptySource) (fun _ => emptyTarget) 1 35
    (Dbl.val (1 / 10)) (Dbl.val (1 / 10)) [] 1 param0 [] idM4D idM4D
    (fun _ => true) false idM4D idM4D rfl (by with_unfolding_all rfl)

end D2DNDT
